import Mathlib

/-!
# go-envtoken: environment-variable backed configuration tokens

A shallow embedding of `envtoken/tokens.go`.

* Go pointers to strings (`*string`) are `Option String`; `nil` is `none`.
* `*EnvToken` values held by the registry are token values; the write
  `t.SetValue(&v)` followed by `env.Add(t)` stores the updated token.
* The registry map `map[string]*EnvToken` is a lookup function
  `String → Option EnvToken`.
* The process environment read by `os.LookupEnv` and `os.Getenv` is an explicit
  argument `environ : String → Option String`.
* Dereferencing a nil pointer is the error result `GoPanic.nilDereference`.
* A Go string is a Lean `String`, a sequence of Unicode scalar values; byte
  strings that are not valid UTF-8 are outside the model.
-/

namespace Envtoken

/-! ## Data model -/

/-- Run-time failure of a Go operation. -/
inductive GoPanic where
  | nilDereference
  deriving DecidableEq, Repr

deriving instance DecidableEq for Except

/-- Source: `type EnvToken struct`. -/
structure EnvToken where
  EnvKey : String
  Required : Bool
  DefaultValue : Option String
  Value : Option String
  deriving DecidableEq, Repr

/-- Source: `func (e *EnvToken) SetValue(v *string)`. -/
def EnvToken.SetValue (e : EnvToken) (v : Option String) : EnvToken :=
  { e with Value := v }

/-- Source: `func NewEnvToken(envKey string, defaultValue string, required bool)`.
The field `Value` is not mentioned by the struct literal, so it is nil. -/
def NewEnvToken (envKey : String) (defaultValue : String) (required : Bool) : EnvToken :=
  { EnvKey := envKey, DefaultValue := some defaultValue, Required := required, Value := none }

/-- Source: `type Environment struct { m map[string]*EnvToken }`.
The map is the one `NewEnvironment` makes, or a later state of it; the nil map
of a zero `Environment` value, on which `Add` fails, is outside the model. -/
structure Environment where
  m : String → Option EnvToken

/-- The map made by `make(map[string]*EnvToken)`. -/
def Environment.empty : Environment :=
  { m := fun _ => none }

/-- Source: `func (e *Environment) Add(t *EnvToken)`, `e.m[t.EnvKey] = t`. -/
def Environment.Add (e : Environment) (t : EnvToken) : Environment :=
  { m := fun k => if k = t.EnvKey then some t else e.m k }

/-- Source: `func (e *Environment) Get(a string) *EnvToken`. -/
def Environment.Get (e : Environment) (a : String) : Option EnvToken :=
  match e.m a with
  | some t => some t
  | none => none

/-- Source: `func (e *Environment) GetValue(k string) *string`.
`*t.Value` and `*t.DefaultValue` fail on a nil pointer. -/
def Environment.GetValue (e : Environment) (k : String) : Except GoPanic (Option String) :=
  match e.Get k with
  | none => .ok none
  | some t =>
    match t.Value with
    | none => .error GoPanic.nilDereference
    | some v =>
      if v ≠ "" then .ok t.Value
      else
        match t.DefaultValue with
        | none => .error GoPanic.nilDereference
        | some d => if d ≠ "" then .ok t.DefaultValue else .ok none

/-! ## Validation errors -/

/-- Source: `type EnvKeyNotSetError struct`. -/
structure EnvKeyNotSetError where
  key : String
  deriving DecidableEq, Repr

/-- Source: `func (e *EnvKeyNotSetError) Error() string`. -/
def EnvKeyNotSetError.Error (e : EnvKeyNotSetError) : String :=
  "key " ++ e.key ++ ", not set"

/-- Source: `func NewEnvKeyNotSetError(key string)`. -/
def NewEnvKeyNotSetError (key : String) : EnvKeyNotSetError :=
  { key := key }

/-- Source: `type EnvEmptyValueError struct`. -/
structure EnvEmptyValueError where
  key : String
  deriving DecidableEq, Repr

/-- Source: `func (e *EnvEmptyValueError) Error() string`. -/
def EnvEmptyValueError.Error (e : EnvEmptyValueError) : String :=
  "key " ++ e.key ++ ", value is empty"

/-- Source: `func NewErrorEnvEmptyValue(key string)`. -/
def NewErrorEnvEmptyValue (key : String) : EnvEmptyValueError :=
  { key := key }

/-- Source: `type EnvErrorCollection struct`. -/
structure EnvErrorCollection where
  unsetErrors : List EnvKeyNotSetError
  emptyValueErrors : List EnvEmptyValueError
  deriving DecidableEq, Repr

/-- Source: `func (e *EnvErrorCollection) AddKeyNotSet(key string)`.
Returns the updated collection and the appended error. -/
def EnvErrorCollection.AddKeyNotSet (e : EnvErrorCollection) (key : String) :
    EnvErrorCollection × EnvKeyNotSetError :=
  let err := NewEnvKeyNotSetError key
  ({ e with unsetErrors := e.unsetErrors ++ [err] }, err)

/-- Source: `func (e *EnvErrorCollection) AddKeyEmptyValue(key string)`.
Returns the updated collection and the appended error. -/
def EnvErrorCollection.AddKeyEmptyValue (e : EnvErrorCollection) (key : String) :
    EnvErrorCollection × EnvEmptyValueError :=
  let err := NewErrorEnvEmptyValue key
  ({ e with emptyValueErrors := e.emptyValueErrors ++ [err] }, err)

/-- Source: `func (e *EnvErrorCollection) GetError() error`.
The result is the message of the error, `none` for a nil error. -/
def EnvErrorCollection.GetError (e : EnvErrorCollection) : Option String :=
  let errs : List String := []
  let errs := errs ++ e.emptyValueErrors.map EnvEmptyValueError.Error
  let errs := errs ++ e.unsetErrors.map EnvKeyNotSetError.Error
  let count := errs.length
  if count > 0 then
    some ("Invalid environment, " ++ toString count ++ " error(s):\n" ++ "\n".intercalate errs)
  else
    none

/-- Source: `func NewEnvErrorCollection() EnvErrorCollection`. -/
def NewEnvErrorCollection : EnvErrorCollection :=
  { unsetErrors := [], emptyValueErrors := [] }

/-! ## Building the registry -/

/-- Go's `os.LookupEnv`: the value and whether the key is present; the value
is the empty string when the key is absent. -/
def LookupEnv (environ : String → Option String) (key : String) : String × Bool :=
  match environ key with
  | some v => (v, true)
  | none => ("", false)

/-- Go's `os.Getenv`: the value, or the empty string when the key is absent. -/
def Getenv (environ : String → Option String) (key : String) : String :=
  (LookupEnv environ key).1

/-- The `for i := range envTokens` loop of `NewEnvironment`, as a pass over the
tokens that threads the registry and the error collection. -/
def NewEnvironment.loop (environ : String → Option String) :
    List EnvToken → Environment → EnvErrorCollection → Environment × EnvErrorCollection
  | [], env, errCollection => (env, errCollection)
  | t :: rest, env, errCollection =>
    let (v, ok) := LookupEnv environ t.EnvKey
    if t.Required then
      if !ok then
        NewEnvironment.loop environ rest env (errCollection.AddKeyNotSet t.EnvKey).1
      else if v = "" then
        NewEnvironment.loop environ rest env (errCollection.AddKeyEmptyValue t.EnvKey).1
      else
        NewEnvironment.loop environ rest (env.Add (t.SetValue (some v))) errCollection
    else
      NewEnvironment.loop environ rest (env.Add (t.SetValue (some v))) errCollection

/-- Source: `func NewEnvironment(envTokens []*EnvToken) (*Environment, *EnvErrorCollection)`. -/
def NewEnvironment (environ : String → Option String) (envTokens : List EnvToken) :
    Environment × Option EnvErrorCollection :=
  let r := NewEnvironment.loop environ envTokens Environment.empty NewEnvErrorCollection
  if r.2.GetError = none then (r.1, none) else (r.1, some r.2)

/-! ## Boolean parser

`reBoolean` is the compiled pattern `^((?i)true|(?i)yes|1)$`. The pattern is
embedded as the syntax tree Go's `regexp/syntax` parser builds for it, with a
matcher for the operators that occur in it.
-/

/-- The fold orbit of a rune: the runes Go's `unicode.SimpleFold` cycles through
starting from `r`. Given for the ASCII range, where a letter folds with its
other case, `k` also with U+212A (Kelvin sign) and `s` also with U+017F (long s).
A rune outside the ASCII letters is taken to fold with itself only; no such rune
occurs in the pattern of `reBoolean`. -/
def simpleFoldOrbit (r : Char) : List Char :=
  if r.isAlpha then
    if r.toLower = 'k' then [r.toUpper, r.toLower, Char.ofNat 0x212A]
    else if r.toLower = 's' then [r.toUpper, r.toLower, Char.ofNat 0x17F]
    else [r.toUpper, r.toLower]
  else [r]

/-- The fragment of Go's `regexp/syntax.Regexp` that `reBoolean` uses. A literal
carries the `FoldCase` flag it was parsed under. -/
inductive Regexp where
  | literal (r : Char) (foldCase : Bool)
  | beginText
  | endText
  | capture (sub : Regexp)
  | concat (a b : Regexp)
  | alternate (a b : Regexp)
  deriving Repr

/-- Go's `Inst.MatchRunePos` for a single-rune literal: the input rune `c` matches
the literal `r` when it is `r`, or, under `FoldCase`, when it is in the fold
orbit of `r`. -/
def matchRune (r : Char) (foldCase : Bool) (c : Char) : Bool :=
  c = r || (foldCase && c ∈ simpleFoldOrbit r)

/-- All ways `re` matches at position `pos` of the text, the rest of the text from
there being `rest`: the list of (position, rest of the text) after each match. -/
def Regexp.matchFrom : Regexp → Nat → List Char → List (Nat × List Char)
  | .literal r foldCase, pos, rest =>
    match rest with
    | [] => []
    | c :: cs => if matchRune r foldCase c then [(pos + 1, cs)] else []
  | .beginText, pos, rest => if pos = 0 then [(pos, rest)] else []
  | .endText, pos, rest => if rest = [] then [(pos, rest)] else []
  | .capture sub, pos, rest => sub.matchFrom pos rest
  | .concat a b, pos, rest =>
    (a.matchFrom pos rest).flatMap fun st => b.matchFrom st.1 st.2
  | .alternate a b, pos, rest => a.matchFrom pos rest ++ b.matchFrom pos rest

/-- Go's `(*Regexp).MatchString`: whether the text contains a match of `re`,
starting at any position. -/
def Regexp.MatchString (re : Regexp) (s : String) : Bool :=
  (List.range (s.data.length + 1)).any fun i =>
    !(re.matchFrom i (s.data.drop i)).isEmpty

/-- Source: `reBoolean = regexp.MustCompile("^((?i)true|(?i)yes|1)$")`.
The flag group `(?i)` holds until the end of the enclosing group, so all three
alternatives are parsed under `FoldCase`; `^` and `$` are the begin and end
of the text (no multi-line flag). -/
def reBoolean : Regexp :=
  .concat .beginText
    (.concat
      (.capture
        (.alternate
          (.concat (.literal 't' true)
            (.concat (.literal 'r' true) (.concat (.literal 'u' true) (.literal 'e' true))))
          (.alternate
            (.concat (.literal 'y' true) (.concat (.literal 'e' true) (.literal 's' true)))
            (.literal '1' true))))
      .endText)

/-- Source: `func GetBoolean(value string) bool`. -/
def GetBoolean (value : String) : Bool :=
  reBoolean.MatchString value

/-- Source: `func BoolFromEnv(key string) bool`. -/
def BoolFromEnv (environ : String → Option String) (key : String) : Bool :=
  GetBoolean (Getenv environ key)

/-- Source: `func (e *Environment) GetBoolean(k string) bool`. -/
def Environment.GetBoolean (e : Environment) (k : String) : Except GoPanic Bool :=
  match e.GetValue k with
  | .error p => .error p
  | .ok none => .ok false
  | .ok (some v) => .ok (Envtoken.GetBoolean v)

/-! ## Vocabulary of the claims -/

/-- A token that is required and whose key is absent from the environment. -/
def requiredNotSet (environ : String → Option String) (t : EnvToken) : Bool :=
  t.Required && (environ t.EnvKey).isNone

/-- A token that is required and whose key is present with the empty string
as value. -/
def requiredEmpty (environ : String → Option String) (t : EnvToken) : Bool :=
  t.Required && decide (environ t.EnvKey = some "")

/-- A token that passes validation: it is optional, or its key is present in the
environment with a non-empty value. -/
def passesValidation (environ : String → Option String) (t : EnvToken) : Bool :=
  !t.Required ||
    match environ t.EnvKey with
    | some v => v ≠ ""
    | none => false

/-- The token as the registry holds it: its resolved value points to the raw
value read from the environment, the empty string for an absent key. -/
def resolved (environ : String → Option String) (t : EnvToken) : EnvToken :=
  t.SetValue (some ((environ t.EnvKey).getD ""))

/-- The tokens of the scenario of the spec: `A` optional with default
`"default"`, `B` required with an empty default. -/
def scenarioTokens : List EnvToken :=
  [NewEnvToken "A" "default" false, NewEnvToken "B" "" true]

/-- An environment in which no key is set. -/
def emptyEnviron : String → Option String :=
  fun _ => none

/-- An environment in which only `B` is set, to `value2`. -/
def scenarioEnviron : String → Option String :=
  fun k => if k = "B" then some "value2" else none

/-- Tokens for the six combinations of an environment value that is non-empty
(`N1`, `N2`), empty (`E1`, `E2`) or absent (`A1`, `A2`) with a default that is
non-empty (`d`) or empty. -/
def sixTokens : List EnvToken :=
  [NewEnvToken "N1" "d" false, NewEnvToken "N2" "" false, NewEnvToken "E1" "d" false,
    NewEnvToken "E2" "" false, NewEnvToken "A1" "d" false, NewEnvToken "A2" "" false]

/-- The environment for `sixTokens`: `N1` and `N2` set to `v`, `E1` and `E2` set
to the empty string, nothing else set. -/
def sixEnviron : String → Option String :=
  fun k =>
    if k = "N1" ∨ k = "N2" then some "v"
    else if k = "E1" ∨ k = "E2" then some ""
    else none

/-- A registry holding under `K` a token whose resolved value is empty and whose
default is `true`. -/
def defaultTrueRegistry : Environment :=
  Environment.empty.Add
    { EnvKey := "K", Required := false, DefaultValue := some "true", Value := some "" }

/-- Leading and trailing white space removed. -/
def trimSpace (cs : List Char) : List Char :=
  ((cs.dropWhile Char.isWhitespace).reverse.dropWhile Char.isWhitespace).reverse

/-- The boolean parser in the words of the spec: the input is trimmed and then
compared, ignoring case, with `true` and `yes`, and exactly with `1`. -/
def ParseBoolean (s : String) : Bool :=
  let t := trimSpace s.data
  decide (t.map Char.toLower = ['t', 'r', 'u', 'e']) ||
    decide (t.map Char.toLower = ['y', 'e', 's']) || decide (t = ['1'])

/-- The inputs of the boolean parser listed by the spec, with the result for each. -/
def booleanTable : List (String × Bool) :=
  [("true", true), ("TRUE", true), ("yes", true), ("YES", true), ("1", true),
    ("", false), ("0", false), ("no", false), ("false", false), ("2", false)]

/-- The collection after a not-set error for `X` and then one for `Y`. -/
def twoUnsetErrors : EnvErrorCollection :=
  ((NewEnvErrorCollection.AddKeyNotSet "X").1.AddKeyNotSet "Y").1

/-- One optional token `K` with the default `true`. -/
def defaultTrueTokens : List EnvToken :=
  [NewEnvToken "K" "true" false]

/-- An environment in which only `K` is set, to the empty string. -/
def emptyKEnviron : String → Option String :=
  fun k => if k = "K" then some "" else none

/-- A required and then an optional token, both with the key `A`. -/
def shadowTokens : List EnvToken :=
  [NewEnvToken "A" "" true, NewEnvToken "A" "d" false]

/-- Tokens of mixed outcome: `X` required (twice), `O` optional, `E` and `F`
required, `S` required. -/
def mixedTokens : List EnvToken :=
  [NewEnvToken "X" "" true, NewEnvToken "O" "o" false, NewEnvToken "E" "" true,
    NewEnvToken "X" "x" true, NewEnvToken "S" "" true, NewEnvToken "F" "f" true]

/-- The environment for `mixedTokens`: `E` and `F` set to the empty string, `S` set
to `s`, nothing else set. -/
def mixedEnviron : String → Option String :=
  fun k =>
    if k = "E" ∨ k = "F" then some ""
    else if k = "S" then some "s"
    else none

/-- Two required tokens, as in the test of a valid environment. -/
def requiredTokens : List EnvToken :=
  [NewEnvToken "_TEST_NOT_SET_1" "" true, NewEnvToken "_TEST_NOT_SET_2" "" true]

/-- The environment of the test of a valid environment: each of the two keys is
set to its own name. -/
def requiredEnviron : String → Option String :=
  fun k =>
    if k = "_TEST_NOT_SET_1" ∨ k = "_TEST_NOT_SET_2" then some k else none

/-! ## The validation pass -/

theorem passesValidation_iff (environ : String → Option String) (t : EnvToken) :
    passesValidation environ t = true ↔
      (t.Required = true → ∃ v, environ t.EnvKey = some v ∧ v ≠ "") := by
  unfold passesValidation
  cases hr : t.Required <;> cases he : environ t.EnvKey <;> simp

theorem passesValidation_eq (environ : String → Option String) (t : EnvToken) :
    passesValidation environ t = (!requiredNotSet environ t && !requiredEmpty environ t) := by
  unfold passesValidation requiredNotSet requiredEmpty
  cases hr : t.Required <;> cases he : environ t.EnvKey <;> simp

/-- One step of the loop, by the three outcomes for the token. -/
theorem loop_cons (environ : String → Option String) (t : EnvToken) (rest : List EnvToken)
    (env : Environment) (c : EnvErrorCollection) :
    NewEnvironment.loop environ (t :: rest) env c =
      NewEnvironment.loop environ rest
        (if passesValidation environ t then env.Add (resolved environ t) else env)
        { unsetErrors :=
            c.unsetErrors ++
              (if requiredNotSet environ t then [NewEnvKeyNotSetError t.EnvKey] else [])
          emptyValueErrors :=
            c.emptyValueErrors ++
              (if requiredEmpty environ t then [NewErrorEnvEmptyValue t.EnvKey] else []) } := by
  rw [NewEnvironment.loop]
  unfold passesValidation requiredNotSet requiredEmpty resolved LookupEnv
    EnvErrorCollection.AddKeyNotSet EnvErrorCollection.AddKeyEmptyValue
  cases hr : t.Required <;> cases he : environ t.EnvKey <;> simp
  split <;> simp_all

/-- The state the loop ends in: the passing tokens added in input order, and
the two error sequences extended in input order. -/
theorem loop_eq (environ : String → Option String) (toks : List EnvToken) :
    ∀ (env : Environment) (c : EnvErrorCollection),
      NewEnvironment.loop environ toks env c =
        ((toks.filter (passesValidation environ)).foldl
            (fun e t => e.Add (resolved environ t)) env,
          { unsetErrors :=
              c.unsetErrors ++
                (toks.filter (requiredNotSet environ)).map fun t => NewEnvKeyNotSetError t.EnvKey
            emptyValueErrors :=
              c.emptyValueErrors ++
                (toks.filter (requiredEmpty environ)).map fun t =>
                  NewErrorEnvEmptyValue t.EnvKey }) := by
  induction toks with
  | nil => intro env c; simp [NewEnvironment.loop]
  | cons t rest ih =>
    intro env c
    rw [loop_cons, ih]
    cases hp : passesValidation environ t <;> cases hn : requiredNotSet environ t <;>
      cases he : requiredEmpty environ t <;> simp [List.filter_cons, hp, hn, he]

/-! ## Lookups in the built registry -/

theorem Get_eq (e : Environment) (k : String) : e.Get k = e.m k := by
  unfold Environment.Get
  cases e.m k <;> rfl

theorem Get_Add (e : Environment) (t : EnvToken) (k : String) :
    (e.Add t).Get k = if k = t.EnvKey then some t else e.Get k := by
  simp [Get_eq, Environment.Add]

theorem resolved_EnvKey (environ : String → Option String) (t : EnvToken) :
    (resolved environ t).EnvKey = t.EnvKey := rfl

/-- A lookup after adding a list of tokens finds the last added token with the
key, and the earlier content when there is none. -/
theorem foldl_Add_Get (environ : String → Option String) (k : String) (l : List EnvToken) :
    ∀ env : Environment,
      (l.foldl (fun e t => e.Add (resolved environ t)) env).Get k =
        match (l.filter fun t => decide (t.EnvKey = k)).getLast? with
        | some t => some (resolved environ t)
        | none => env.Get k := by
  induction l with
  | nil => intro env; simp
  | cons t rest ih =>
    intro env
    rw [List.foldl_cons, ih, Get_Add, resolved_EnvKey]
    by_cases hk : t.EnvKey = k
    · have hk2 : k = t.EnvKey := hk.symm
      simp only [List.filter_cons, hk, decide_True, if_true, List.getLast?_cons]
      cases (rest.filter fun t => decide (t.EnvKey = k)).getLast? <;> simp [hk]
    · have hk2 : ¬ k = t.EnvKey := fun h => hk h.symm
      simp [List.filter_cons, hk, hk2]

/-- The registry the loop ends with is the one `NewEnvironment` returns. -/
theorem NewEnvironment_fst (environ : String → Option String) (toks : List EnvToken) :
    (NewEnvironment environ toks).1 =
      (NewEnvironment.loop environ toks Environment.empty NewEnvErrorCollection).1 := by
  unfold NewEnvironment
  simp only []
  split <;> rfl

/-- Lookup in the built registry: the last input token with the key that passes
validation, with its resolved value set. -/
theorem registry_Get (environ : String → Option String) (toks : List EnvToken) (k : String) :
    (NewEnvironment environ toks).1.Get k =
      ((toks.filter fun t => decide (t.EnvKey = k) && passesValidation environ t).getLast?).map
        (resolved environ) := by
  rw [NewEnvironment_fst, loop_eq]
  simp only [foldl_Add_Get, List.filter_filter]
  cases ((toks.filter fun t => decide (t.EnvKey = k) && passesValidation environ t).getLast?) with
  | none => simp [Get_eq, Environment.empty]
  | some t => simp

/-- With pairwise distinct keys, the only input token with the key of `t` is `t`. -/
theorem filter_key_of_nodup (p : EnvToken → Bool) (toks : List EnvToken)
    (hd : (toks.map EnvToken.EnvKey).Nodup) (t : EnvToken) (ht : t ∈ toks) :
    (toks.filter fun u => decide (u.EnvKey = t.EnvKey) && p u) = if p t then [t] else [] := by
  induction toks with
  | nil => cases ht
  | cons u rest ih =>
    rw [List.map_cons, List.nodup_cons] at hd
    rcases List.mem_cons.mp ht with h | h
    · subst h
      have hrest : (rest.filter fun u => decide (u.EnvKey = t.EnvKey) && p u) = [] := by
        apply List.filter_eq_nil_iff.mpr
        intro a ha hpa
        have hka : a.EnvKey = t.EnvKey := by
          simp only [Bool.and_eq_true, decide_eq_true_eq] at hpa
          exact hpa.1
        exact hd.1 (hka ▸ List.mem_map_of_mem _ ha)
      cases hp : p t <;> simp [List.filter_cons, hp, hrest]
    · have hne : ¬ u.EnvKey = t.EnvKey := fun hk =>
        hd.1 (hk ▸ List.mem_map_of_mem _ h)
      simp [List.filter_cons, hne, ih hd.2 h]

theorem GetError_eq_none_iff (c : EnvErrorCollection) :
    c.GetError = none ↔ c.unsetErrors = [] ∧ c.emptyValueErrors = [] := by
  unfold EnvErrorCollection.GetError
  cases hu : c.unsetErrors <;> cases he : c.emptyValueErrors <;> simp

/-- The collection `NewEnvironment` returns: nil when the loop recorded no error,
the collection of the loop otherwise. -/
theorem NewEnvironment_snd (environ : String → Option String) (toks : List EnvToken) :
    (NewEnvironment environ toks).2 =
      if (toks.filter (requiredNotSet environ)) = [] ∧ (toks.filter (requiredEmpty environ)) = []
      then none
      else some
        { unsetErrors :=
            (toks.filter (requiredNotSet environ)).map fun t => NewEnvKeyNotSetError t.EnvKey
          emptyValueErrors :=
            (toks.filter (requiredEmpty environ)).map fun t => NewErrorEnvEmptyValue t.EnvKey } := by
  unfold NewEnvironment
  simp only [GetError_eq_none_iff, loop_eq, NewEnvErrorCollection, List.nil_append,
    List.map_eq_nil_iff]
  split <;> rfl

/-! ## The claims -/

/-- C1: for every token list and environment, the not-set error sequence of the
collection built by `NewEnvironment` is, in input order, one `KeyNotSet` error
carrying the key of the token for each input token that is required and whose
key is absent from the environment, and nothing else (duplicates kept): the
keys of the errors are exactly the keys of those tokens. This holds for the
collection the loop builds and for the returned one, a nil collection holding
no error. -/
theorem C1_unsetErrors_exact (environ : String → Option String) (toks : List EnvToken) :
    ((NewEnvironment.loop environ toks Environment.empty NewEnvErrorCollection).2.unsetErrors =
        (toks.filter fun t => t.Required && (environ t.EnvKey).isNone).map
          (fun t => ({ key := t.EnvKey } : EnvKeyNotSetError)) ∧
      (match (NewEnvironment environ toks).2 with
        | some c => c.unsetErrors
        | none => []) =
        (toks.filter fun t => t.Required && (environ t.EnvKey).isNone).map
          (fun t => ({ key := t.EnvKey } : EnvKeyNotSetError))) ∧
      (match (NewEnvironment environ toks).2 with
        | some c => c.unsetErrors.map EnvKeyNotSetError.key
        | none => []) =
        (toks.filter fun t => t.Required && (environ t.EnvKey).isNone).map EnvToken.EnvKey := by
  have hf : (fun t : EnvToken => t.Required && (environ t.EnvKey).isNone) =
      requiredNotSet environ := rfl
  have hc : (fun t : EnvToken => ({ key := t.EnvKey } : EnvKeyNotSetError)) =
      fun t => NewEnvKeyNotSetError t.EnvKey := rfl
  rw [hf, hc, loop_eq, NewEnvironment_snd]
  by_cases h : (toks.filter (requiredNotSet environ)) = [] ∧
      (toks.filter (requiredEmpty environ)) = []
  · rw [if_pos h, h.1]
    exact ⟨⟨by simp [NewEnvErrorCollection], rfl⟩, rfl⟩
  · rw [if_neg h]
    refine ⟨⟨by simp [NewEnvErrorCollection], rfl⟩, ?_⟩
    simp [NewEnvKeyNotSetError, Function.comp_def]

/-- C1 on tokens of mixed outcome: the required key `X`, absent and listed
twice, gives two not-set errors for `X`; the optional, the empty and the set
tokens give none. -/
theorem C1_unsetErrors_exact_witness :
    (match (NewEnvironment mixedEnviron mixedTokens).2 with
      | some c => c.unsetErrors
      | none => []) = [{ key := "X" }, { key := "X" }] ∧
      (match (NewEnvironment emptyEnviron requiredTokens).2 with
        | some c => c.unsetErrors.map EnvKeyNotSetError.key
        | none => []) = ["_TEST_NOT_SET_1", "_TEST_NOT_SET_2"] :=
  ⟨(C1_unsetErrors_exact mixedEnviron mixedTokens).1.2.trans (by decide),
    (C1_unsetErrors_exact emptyEnviron requiredTokens).2.trans (by decide)⟩

/-- C2: for every token list and environment, the empty-value error sequence of
the collection built by `NewEnvironment` is, in input order, one
`KeyEmptyValue` error carrying the key of the token for each input token that
is required and whose key is present with the empty string as value, and
nothing else: the keys of the errors are exactly the keys of those tokens. This
holds for the collection the loop builds and for the returned one, a nil
collection holding no error. -/
theorem C2_emptyValueErrors_exact (environ : String → Option String) (toks : List EnvToken) :
    ((NewEnvironment.loop environ toks Environment.empty
          NewEnvErrorCollection).2.emptyValueErrors =
        (toks.filter fun t => t.Required && decide (environ t.EnvKey = some "")).map
          (fun t => ({ key := t.EnvKey } : EnvEmptyValueError)) ∧
      (match (NewEnvironment environ toks).2 with
        | some c => c.emptyValueErrors
        | none => []) =
        (toks.filter fun t => t.Required && decide (environ t.EnvKey = some "")).map
          (fun t => ({ key := t.EnvKey } : EnvEmptyValueError))) ∧
      (match (NewEnvironment environ toks).2 with
        | some c => c.emptyValueErrors.map EnvEmptyValueError.key
        | none => []) =
        (toks.filter fun t => t.Required && decide (environ t.EnvKey = some "")).map
          EnvToken.EnvKey := by
  have hf : (fun t : EnvToken => t.Required && decide (environ t.EnvKey = some "")) =
      requiredEmpty environ := rfl
  have hc : (fun t : EnvToken => ({ key := t.EnvKey } : EnvEmptyValueError)) =
      fun t => NewErrorEnvEmptyValue t.EnvKey := rfl
  rw [hf, hc, loop_eq, NewEnvironment_snd]
  by_cases h : (toks.filter (requiredNotSet environ)) = [] ∧
      (toks.filter (requiredEmpty environ)) = []
  · rw [if_pos h, h.2]
    exact ⟨⟨by simp [NewEnvErrorCollection], rfl⟩, rfl⟩
  · rw [if_neg h]
    refine ⟨⟨by simp [NewEnvErrorCollection], rfl⟩, ?_⟩
    simp [NewErrorEnvEmptyValue, Function.comp_def]

/-- C2 on tokens of mixed outcome: the required keys `E` and `F`, set to the
empty string, give one empty-value error each, in input order; the absent, the
optional and the set tokens give none. An optional token set to the empty
string gives none either. -/
theorem C2_emptyValueErrors_exact_witness :
    (match (NewEnvironment mixedEnviron mixedTokens).2 with
      | some c => c.emptyValueErrors
      | none => []) = [{ key := "E" }, { key := "F" }] ∧
      (match (NewEnvironment emptyKEnviron defaultTrueTokens).2 with
        | some c => c.emptyValueErrors.map EnvEmptyValueError.key
        | none => []) = [] :=
  ⟨(C2_emptyValueErrors_exact mixedEnviron mixedTokens).1.2.trans (by decide),
    (C2_emptyValueErrors_exact emptyKEnviron defaultTrueTokens).2.trans (by decide)⟩

/-- C3: `NewEnvironment` returns a nil error collection if and only if every
required input token has its key present in the environment with a non-empty
value; otherwise it returns the collection built by the loop, which holds the
not-set and the empty-value errors with the keys of the failing tokens; in both
cases the registry it returns is the one obtained by adding, in input order,
the tokens that passed validation, so that `Get` of a key finds the last input
token with the key that passed, with its resolved value pointing to the raw
value of the key, and finds nothing when no token with the key passed. -/
theorem C3_nil_iff_all_required_set (environ : String → Option String)
    (toks : List EnvToken) :
    (((NewEnvironment environ toks).2 = none ↔
        ∀ t ∈ toks, t.Required = true → ∃ v, environ t.EnvKey = some v ∧ v ≠ "") ∧
      ((NewEnvironment environ toks).2 = none ∨
        (NewEnvironment environ toks).2 =
          some (NewEnvironment.loop environ toks Environment.empty NewEnvErrorCollection).2) ∧
      (NewEnvironment environ toks).1 =
        (toks.filter fun t =>
            !t.Required ||
              match environ t.EnvKey with
              | some v => v ≠ ""
              | none => false).foldl
          (fun e t => e.Add (t.SetValue (some ((environ t.EnvKey).getD ""))))
          Environment.empty) ∧
      (∀ k : String,
        (NewEnvironment environ toks).1.Get k =
          ((toks.filter fun t =>
              decide (t.EnvKey = k) &&
                (!t.Required ||
                  match environ t.EnvKey with
                  | some v => v ≠ ""
                  | none => false)).getLast?).map
            fun t => ({ EnvKey := t.EnvKey, Required := t.Required,
                        DefaultValue := t.DefaultValue,
                        Value := some ((environ k).getD "") } : EnvToken)) ∧
      ((NewEnvironment environ toks).2 = none ∨
        (NewEnvironment environ toks).2 =
          some
            { unsetErrors :=
                (toks.filter fun t => t.Required && (environ t.EnvKey).isNone).map
                  fun t => { key := t.EnvKey }
              emptyValueErrors :=
                (toks.filter fun t => t.Required && decide (environ t.EnvKey = some "")).map
                  fun t => { key := t.EnvKey } }) := by
  refine ⟨⟨?_, ?_, ?_⟩, ?_, ?_⟩
  · rw [NewEnvironment_snd]
    constructor
    · intro h t ht
      rw [← passesValidation_iff, passesValidation_eq]
      by_cases hc : (toks.filter (requiredNotSet environ)) = [] ∧
          (toks.filter (requiredEmpty environ)) = []
      · have h1 := List.filter_eq_nil_iff.mp hc.1 t ht
        have h2 := List.filter_eq_nil_iff.mp hc.2 t ht
        simp [h1, h2]
      · rw [if_neg hc] at h
        cases h
    · intro h
      have hc : (toks.filter (requiredNotSet environ)) = [] ∧
          (toks.filter (requiredEmpty environ)) = [] := by
        constructor <;>
        · apply List.filter_eq_nil_iff.mpr
          intro t ht
          have hp := (passesValidation_iff environ t).mpr (h t ht)
          rw [passesValidation_eq] at hp
          simp only [Bool.and_eq_true, Bool.not_eq_true'] at hp
          simp [hp.1, hp.2]
      rw [if_pos hc]
  · unfold NewEnvironment
    simp only []
    split
    · exact Or.inl rfl
    · exact Or.inr rfl
  · rw [NewEnvironment_fst, loop_eq]
    rfl
  · intro k
    rw [registry_Get]
    have hf : (fun t : EnvToken => decide (t.EnvKey = k) &&
          (!t.Required ||
            match environ t.EnvKey with
            | some v => v ≠ ""
            | none => false)) =
        fun t => decide (t.EnvKey = k) && passesValidation environ t := by
      funext t
      simp only [passesValidation]
    rw [hf]
    cases hl : (toks.filter fun t =>
        decide (t.EnvKey = k) && passesValidation environ t).getLast? with
    | none => rfl
    | some t =>
      have hmem := List.mem_filter.mp (List.mem_of_getLast?_eq_some hl)
      simp only [Bool.and_eq_true, decide_eq_true_eq] at hmem
      simp only [Option.map_some', resolved, EnvToken.SetValue, hmem.2.1]
  · rw [NewEnvironment_snd]
    by_cases hc : (toks.filter (requiredNotSet environ)) = [] ∧
        (toks.filter (requiredEmpty environ)) = []
    · rw [if_pos hc]
      exact Or.inl rfl
    · rw [if_neg hc]
      exact Or.inr rfl

/-- C3 on the test of a valid environment and on tokens of mixed outcome: with
both required keys set the collection is nil and the registry holds each token
with its value; with failing tokens the collection is returned with their keys,
and the registry holds the tokens that passed and not the ones that failed. -/
theorem C3_nil_iff_all_required_set_witness :
    ((NewEnvironment requiredEnviron requiredTokens).2 = none ∧
        (NewEnvironment requiredEnviron requiredTokens).1.Get "_TEST_NOT_SET_2" =
          some { EnvKey := "_TEST_NOT_SET_2", Required := true, DefaultValue := some "",
                 Value := some "_TEST_NOT_SET_2" }) ∧
      (NewEnvironment mixedEnviron mixedTokens).2 =
        some { unsetErrors := [{ key := "X" }, { key := "X" }],
               emptyValueErrors := [{ key := "E" }, { key := "F" }] } ∧
      (NewEnvironment mixedEnviron mixedTokens).1.Get "S" =
        some { EnvKey := "S", Required := true, DefaultValue := some "", Value := some "s" } ∧
      (NewEnvironment mixedEnviron mixedTokens).1.Get "X" = none :=
  ⟨⟨(C3_nil_iff_all_required_set requiredEnviron requiredTokens).1.1.mpr (by decide),
      ((C3_nil_iff_all_required_set requiredEnviron requiredTokens).2.1
        "_TEST_NOT_SET_2").trans (by decide)⟩,
    ((C3_nil_iff_all_required_set mixedEnviron mixedTokens).2.2.resolve_left
      (by decide)).trans (by decide),
    ((C3_nil_iff_all_required_set mixedEnviron mixedTokens).2.1 "S").trans (by decide),
    ((C3_nil_iff_all_required_set mixedEnviron mixedTokens).2.1 "X").trans (by decide)⟩

/-- C4: for a token list with pairwise distinct keys, a required token whose key
is absent from the environment, or present with the empty value, is not in the
registry returned by `NewEnvironment`: `Get` of its key is nil and `GetValue`
of its key returns nil. -/
theorem C4_failed_required_excluded (environ : String → Option String)
    (toks : List EnvToken) (t : EnvToken)
    (hd : (toks.map EnvToken.EnvKey).Nodup) (ht : t ∈ toks) (hr : t.Required = true)
    (hf : environ t.EnvKey = none ∨ environ t.EnvKey = some "") :
    (NewEnvironment environ toks).1.Get t.EnvKey = none ∧
      (NewEnvironment environ toks).1.GetValue t.EnvKey = .ok none := by
  have hp : passesValidation environ t = false := by
    unfold passesValidation
    rcases hf with h | h <;> simp [hr, h]
  have hg : (NewEnvironment environ toks).1.Get t.EnvKey = none := by
    rw [registry_Get, filter_key_of_nodup (passesValidation environ) toks hd t ht, hp]
    rfl
  refine ⟨hg, ?_⟩
  unfold Environment.GetValue
  rw [hg]

/-- C4, the scenario of the spec: with `A` optional and `B` required and neither
set, `Get "B"` is nil. -/
theorem C4_failed_required_excluded_witness :
    (NewEnvironment emptyEnviron scenarioTokens).1.Get "B" = none ∧
      (NewEnvironment emptyEnviron scenarioTokens).1.GetValue "B" = .ok none :=
  C4_failed_required_excluded emptyEnviron scenarioTokens (NewEnvToken "B" "" true)
    (by decide) (by decide) rfl (Or.inl rfl)

/-- C5: for every token list and environment, every optional input token is in
the registry returned by `NewEnvironment`, whatever the environment holds for
its key: `Get` of its key is not nil. -/
theorem C5_optional_included (environ : String → Option String) (toks : List EnvToken)
    (t : EnvToken) (ht : t ∈ toks) (ho : t.Required = false) :
    (NewEnvironment environ toks).1.Get t.EnvKey ≠ none := by
  rw [registry_Get]
  have hmem : t ∈ toks.filter fun u =>
      decide (u.EnvKey = t.EnvKey) && passesValidation environ u := by
    apply List.mem_filter.mpr
    refine ⟨ht, ?_⟩
    simp [passesValidation, ho]
  intro h
  rw [Option.map_eq_none', List.getLast?_eq_none_iff] at h
  rw [h] at hmem
  cases hmem

/-- C5 on the scenario of the spec: the optional token `A` is in the registry
with no key set. -/
theorem C5_optional_included_witness :
    (NewEnvironment emptyEnviron scenarioTokens).1.Get "A" ≠ none :=
  C5_optional_included emptyEnviron scenarioTokens (NewEnvToken "A" "default" false)
    (by decide) rfl

/-- C6: for a token list with pairwise distinct keys and a token of it made by
`NewEnvToken` that `NewEnvironment` stores in the registry, `GetValue` of its key
returns the value of the environment when that is set and non-empty, otherwise
the default of the token when that is non-empty, otherwise nil. The other tokens
of the list need not be made by `NewEnvToken`. -/
theorem C6_GetValue_env_then_default (environ : String → Option String)
    (toks : List EnvToken) (k d : String) (r : Bool)
    (hd : (toks.map EnvToken.EnvKey).Nodup) (ht : NewEnvToken k d r ∈ toks)
    (hs : (NewEnvironment environ toks).1.Get k ≠ none) :
    (NewEnvironment environ toks).1.GetValue k =
      .ok (match environ k with
        | some v => if v ≠ "" then some v else if d ≠ "" then some d else none
        | none => if d ≠ "" then some d else none) := by
  have hg := registry_Get environ toks k
  have hf := filter_key_of_nodup (passesValidation environ) toks hd (NewEnvToken k d r) ht
  have hk : (NewEnvToken k d r).EnvKey = k := rfl
  rw [hk] at hf
  rw [hf] at hg
  cases hp : passesValidation environ (NewEnvToken k d r) with
  | false =>
    rw [hp] at hg
    exact absurd hg hs
  | true =>
    rw [hp] at hg
    unfold Environment.GetValue
    rw [hg]
    cases he : environ k with
    | none => by_cases hd0 : d = "" <;> simp [resolved, EnvToken.SetValue, NewEnvToken, he, hd0]
    | some v =>
      by_cases hv : v = "" <;> by_cases hd0 : d = "" <;>
        simp [resolved, EnvToken.SetValue, NewEnvToken, he, hv, hd0]

/-- C6 on the six combinations of environment value and default. -/
theorem C6_GetValue_env_then_default_witness :
    (NewEnvironment sixEnviron sixTokens).1.GetValue "N1" = .ok (some "v") ∧
      (NewEnvironment sixEnviron sixTokens).1.GetValue "N2" = .ok (some "v") ∧
      (NewEnvironment sixEnviron sixTokens).1.GetValue "E1" = .ok (some "d") ∧
      (NewEnvironment sixEnviron sixTokens).1.GetValue "E2" = .ok none ∧
      (NewEnvironment sixEnviron sixTokens).1.GetValue "A1" = .ok (some "d") ∧
      (NewEnvironment sixEnviron sixTokens).1.GetValue "A2" = .ok none :=
  ⟨C6_GetValue_env_then_default sixEnviron sixTokens "N1" "d" false
      (by decide) (by decide) (by decide),
    C6_GetValue_env_then_default sixEnviron sixTokens "N2" "" false
      (by decide) (by decide) (by decide),
    C6_GetValue_env_then_default sixEnviron sixTokens "E1" "d" false
      (by decide) (by decide) (by decide),
    C6_GetValue_env_then_default sixEnviron sixTokens "E2" "" false
      (by decide) (by decide) (by decide),
    C6_GetValue_env_then_default sixEnviron sixTokens "A1" "d" false
      (by decide) (by decide) (by decide),
    C6_GetValue_env_then_default sixEnviron sixTokens "A2" "" false
      (by decide) (by decide) (by decide)⟩

/-- C7: for every registry and key, `GetValue` returns nil when the key is not in
the registry; when the key maps to a token whose resolved value and default are
both set, it returns the resolved value if that is non-empty, otherwise the
default if that is non-empty, otherwise nil; and it never returns an empty
string. -/
theorem C7_GetValue_cases (e : Environment) (k : String) :
    (e.Get k = none → e.GetValue k = .ok none) ∧
      (∀ t v d, e.Get k = some t → t.Value = some v → t.DefaultValue = some d →
        e.GetValue k = .ok (if v ≠ "" then some v else if d ≠ "" then some d else none)) ∧
      e.GetValue k ≠ .ok (some "") := by
  refine ⟨?_, ?_, ?_⟩
  · intro h
    unfold Environment.GetValue
    rw [h]
  · intro t v d ht hv hdv
    unfold Environment.GetValue
    rw [ht]
    simp only [hv, hdv]
    by_cases h1 : v = "" <;> by_cases h2 : d = "" <;> simp [h1, h2]
  · unfold Environment.GetValue
    cases e.Get k with
    | none => simp
    | some t =>
      cases hv : t.Value with
      | none => simp [hv]
      | some v =>
        cases hdv : t.DefaultValue with
        | none => by_cases h1 : v = "" <;> simp [hv, hdv, h1]
        | some d => by_cases h1 : v = "" <;> by_cases h2 : d = "" <;> simp [hv, hdv, h1, h2]

/-- C7 on a registry token with an empty resolved value and the default `true`. -/
theorem C7_GetValue_cases_witness :
    defaultTrueRegistry.GetValue "K" = .ok (some "true") :=
  (C7_GetValue_cases defaultTrueRegistry "K").2.1
    { EnvKey := "K", Required := false, DefaultValue := some "true", Value := some "" }
    "" "true" rfl rfl rfl

/-- C8: a token made by `NewEnvToken` and put in a registry with `Add`, without
`SetValue`, has a nil resolved value; `GetValue` of its key dereferences it and
fails, although the default is the non-empty `d`. -/
theorem C8_GetValue_nil_value_fails :
    (NewEnvToken "K" "d" false).Value = none ∧
      (((NewEnvironment emptyEnviron []).1.Add (NewEnvToken "K" "d" false)).GetValue "K" =
        .error GoPanic.nilDereference) := by
  decide

/-! ## The boolean parser -/

theorem simpleFoldOrbit_t : simpleFoldOrbit 't' = ['T', 't'] := by decide
theorem simpleFoldOrbit_r : simpleFoldOrbit 'r' = ['R', 'r'] := by decide
theorem simpleFoldOrbit_u : simpleFoldOrbit 'u' = ['U', 'u'] := by decide
theorem simpleFoldOrbit_e : simpleFoldOrbit 'e' = ['E', 'e'] := by decide
theorem simpleFoldOrbit_y : simpleFoldOrbit 'y' = ['Y', 'y'] := by decide
theorem simpleFoldOrbit_s : simpleFoldOrbit 's' = ['S', 's', Char.ofNat 0x17F] := by decide
theorem simpleFoldOrbit_1 : simpleFoldOrbit '1' = ['1'] := by decide

/-- A pattern that starts with `^` matches at the start of the text only. -/
theorem MatchString_beginText (re : Regexp) (s : String) :
    (Regexp.concat .beginText re).MatchString s = !(re.matchFrom 0 s.data).isEmpty := by
  unfold Regexp.MatchString
  rw [Bool.eq_iff_iff, List.any_eq_true]
  constructor
  · rintro ⟨i, _, hi⟩
    cases i with
    | zero => simpa [Regexp.matchFrom] using hi
    | succ n => simp [Regexp.matchFrom] at hi
  · intro h
    refine ⟨0, by simp, ?_⟩
    simpa [Regexp.matchFrom] using h



theorem matchFrom_literal_nil (r : Char) (f : Bool) (pos : Nat) :
    (Regexp.literal r f).matchFrom pos [] = [] := rfl

theorem matchFrom_literal_cons (r : Char) (f : Bool) (pos : Nat) (c : Char) (cs : List Char) :
    (Regexp.literal r f).matchFrom pos (c :: cs) =
      if matchRune r f c then [(pos + 1, cs)] else [] := rfl

theorem matchFrom_capture (re : Regexp) (pos : Nat) (cs : List Char) :
    (Regexp.capture re).matchFrom pos cs = re.matchFrom pos cs := rfl

theorem matchFrom_alternate (a b : Regexp) (pos : Nat) (cs : List Char) :
    (Regexp.alternate a b).matchFrom pos cs = a.matchFrom pos cs ++ b.matchFrom pos cs := rfl

theorem matchFrom_concat_literal_nil (r : Char) (f : Bool) (re : Regexp) (pos : Nat) :
    (Regexp.concat (.literal r f) re).matchFrom pos [] = [] := rfl

theorem matchFrom_concat_literal_cons (r : Char) (f : Bool) (re : Regexp) (pos : Nat)
    (c : Char) (rest : List Char) :
    (Regexp.concat (.literal r f) re).matchFrom pos (c :: rest) =
      if matchRune r f c then re.matchFrom (pos + 1) rest else [] := by
  show ((Regexp.literal r f).matchFrom pos (c :: rest)).flatMap _ = _
  rw [matchFrom_literal_cons]
  by_cases h : matchRune r f c = true <;> simp [h]

theorem matchFrom_concat_endText (re : Regexp) (pos : Nat) (cs : List Char) :
    (Regexp.concat re .endText).matchFrom pos cs =
      (re.matchFrom pos cs).filter fun st => decide (st.2 = []) := by
  show (re.matchFrom pos cs).flatMap _ = _
  induction re.matchFrom pos cs with
  | nil => rfl
  | cons st l ih =>
    rw [List.flatMap_cons, ih]
    obtain ⟨p, r⟩ := st
    by_cases h : r = [] <;> simp [Regexp.matchFrom, h, List.filter_cons]

theorem GetBoolean_shape (cs : List Char) :
    GetBoolean (String.mk cs) =
      match cs with
      | [a] => matchRune '1' true a
      | [a, b, c] => matchRune 'y' true a && matchRune 'e' true b && matchRune 's' true c
      | [a, b, c, d] =>
        matchRune 't' true a && matchRune 'r' true b && matchRune 'u' true c &&
          matchRune 'e' true d
      | _ => false := by
  unfold GetBoolean reBoolean
  rw [MatchString_beginText, matchFrom_concat_endText]
  rcases cs with _ | ⟨a, _ | ⟨b, _ | ⟨c, _ | ⟨d, _ | ⟨e, rest⟩⟩⟩⟩⟩ <;>
    simp only [matchFrom_capture, matchFrom_alternate, matchFrom_concat_literal_cons,
      matchFrom_concat_literal_nil, matchFrom_literal_cons, matchFrom_literal_nil]
  · rfl
  all_goals (split_ifs <;> simp_all)


theorem matchRune_t (c : Char) : matchRune 't' true c = true ↔ c = 't' ∨ c = 'T' := by
  simp only [matchRune, simpleFoldOrbit_t, Bool.true_and, Bool.or_eq_true, decide_eq_true_eq,
    List.mem_cons, List.mem_singleton, List.not_mem_nil, or_false]
  tauto

theorem matchRune_r (c : Char) : matchRune 'r' true c = true ↔ c = 'r' ∨ c = 'R' := by
  simp only [matchRune, simpleFoldOrbit_r, Bool.true_and, Bool.or_eq_true, decide_eq_true_eq,
    List.mem_cons, List.mem_singleton, List.not_mem_nil, or_false]
  tauto

theorem matchRune_u (c : Char) : matchRune 'u' true c = true ↔ c = 'u' ∨ c = 'U' := by
  simp only [matchRune, simpleFoldOrbit_u, Bool.true_and, Bool.or_eq_true, decide_eq_true_eq,
    List.mem_cons, List.mem_singleton, List.not_mem_nil, or_false]
  tauto

theorem matchRune_e (c : Char) : matchRune 'e' true c = true ↔ c = 'e' ∨ c = 'E' := by
  simp only [matchRune, simpleFoldOrbit_e, Bool.true_and, Bool.or_eq_true, decide_eq_true_eq,
    List.mem_cons, List.mem_singleton, List.not_mem_nil, or_false]
  tauto

theorem matchRune_y (c : Char) : matchRune 'y' true c = true ↔ c = 'y' ∨ c = 'Y' := by
  simp only [matchRune, simpleFoldOrbit_y, Bool.true_and, Bool.or_eq_true, decide_eq_true_eq,
    List.mem_cons, List.mem_singleton, List.not_mem_nil, or_false]
  tauto

theorem matchRune_s (c : Char) :
    matchRune 's' true c = true ↔ c = 's' ∨ c = 'S' ∨ c = Char.ofNat 0x17F := by
  simp only [matchRune, simpleFoldOrbit_s, Bool.true_and, Bool.or_eq_true, decide_eq_true_eq,
    List.mem_cons, List.mem_singleton, List.not_mem_nil, or_false]
  tauto

theorem matchRune_1 (c : Char) : matchRune '1' true c = true ↔ c = '1' := by
  simp only [matchRune, simpleFoldOrbit_1, Bool.true_and, Bool.or_eq_true, decide_eq_true_eq,
    List.mem_cons, List.mem_singleton, List.not_mem_nil, or_false]
  tauto

/-- C9, as amended: `GetBoolean` returns true exactly on the inputs that, with
no trimming, spell `true` or `yes` with each letter in either case (the long s,
U+017F, also standing for the `s` of `yes`, as in Go's case folding) or are `1`;
every other input, the empty string included, returns false. -/
theorem C9_GetBoolean_exact_words (s : String) :
    GetBoolean s = true ↔
      (∃ a b c d, s.data = [a, b, c, d] ∧ (a = 't' ∨ a = 'T') ∧ (b = 'r' ∨ b = 'R') ∧
          (c = 'u' ∨ c = 'U') ∧ (d = 'e' ∨ d = 'E')) ∨
        (∃ a b c, s.data = [a, b, c] ∧ (a = 'y' ∨ a = 'Y') ∧ (b = 'e' ∨ b = 'E') ∧
          (c = 's' ∨ c = 'S' ∨ c = Char.ofNat 0x17F)) ∨
        s = "1" := by
  have h1 : ("1" : String) = String.mk ['1'] := rfl
  cases s with
  | mk cs =>
  rw [GetBoolean_shape, h1]
  rcases cs with _ | ⟨a, _ | ⟨b, _ | ⟨c, _ | ⟨d, _ | ⟨e, rest⟩⟩⟩⟩⟩
  all_goals simp only [String.ext_iff, List.cons.injEq, Bool.and_eq_true, matchRune_t,
    matchRune_r, matchRune_u, matchRune_e, matchRune_y, matchRune_s, matchRune_1]
  all_goals simp
  · constructor
    · rintro ⟨⟨ha, hb⟩, hc⟩
      exact ⟨a, b, c, ⟨rfl, rfl, rfl⟩, ha, hb, hc⟩
    · rintro ⟨_, _, _, ⟨rfl, rfl, rfl⟩, ha, hb, hc⟩
      exact ⟨⟨ha, hb⟩, hc⟩
  · constructor
    · rintro ⟨⟨⟨ha, hb⟩, hc⟩, hd⟩
      exact ⟨a, b, c, d, ⟨rfl, rfl, rfl, rfl⟩, ha, hb, hc, hd⟩
    · rintro ⟨_, _, _, _, ⟨rfl, rfl, rfl, rfl⟩, ha, hb, hc, hd⟩
      exact ⟨⟨⟨ha, hb⟩, hc⟩, hd⟩

/-- C9, the claim refuted: the input ` true ` (with a leading and a trailing
space) trims to `true`, so the claim gives true for it, and `GetBoolean`
returns false. -/
theorem C9_trimmed_input_rejected :
    ParseBoolean " true " = true ∧ GetBoolean " true " = false ∧
      ¬ (GetBoolean " true " = true ↔ ParseBoolean " true " = true) := by
  decide

/-- C10: `GetBoolean` returns true on `true`, `TRUE`, `yes`, `YES`, `1` and false
on the empty string, `0`, `no`, `false`, `2`; and `Environment.GetBoolean` returns
the same for a key whose `GetValue` is that string, nil counting as the empty
string. -/
theorem C10_boolean_table :
    (∀ p ∈ booleanTable, GetBoolean p.1 = p.2) ∧
      ∀ (e : Environment) (k : String) (v : Option String), e.GetValue k = .ok v →
        ∀ p ∈ booleanTable, v.getD "" = p.1 → e.GetBoolean k = .ok p.2 := by
  have htable : ∀ p ∈ booleanTable, GetBoolean p.1 = p.2 := by decide
  refine ⟨htable, ?_⟩
  intro e k v hv p hp hvp
  have hempty : GetBoolean "" = false := by decide
  unfold Environment.GetBoolean
  rw [hv, ← htable p hp, ← hvp]
  cases v with
  | none => simp [hempty]
  | some x => simp

/-- C10 on a registry token with an empty resolved value and the default `true`:
its effective value is `true` and `Environment.GetBoolean` returns true. -/
theorem C10_boolean_table_witness :
    defaultTrueRegistry.GetBoolean "K" = .ok true :=
  C10_boolean_table.2 defaultTrueRegistry "K" (some "true") (by decide) ("true", true)
    (by decide) rfl

/-! ## Error collection and registry operations -/

/-- C11: `GetError` returns nil if and only if both error sequences are empty;
otherwise its message is `Invalid environment, N error(s):`, a newline, and the
N error messages joined by newlines, N being the total number of errors, with
the empty-value messages first and the not-set messages after them, each group
in accumulation order. -/
theorem C11_GetError_message (c : EnvErrorCollection) :
    (c.GetError = none ↔ c.unsetErrors = [] ∧ c.emptyValueErrors = []) ∧
      c.GetError =
        if c.emptyValueErrors = [] ∧ c.unsetErrors = [] then none
        else
          some ("Invalid environment, " ++
            toString (c.emptyValueErrors.length + c.unsetErrors.length) ++ " error(s):\n" ++
            "\n".intercalate
              (c.emptyValueErrors.map (fun e => "key " ++ e.key ++ ", value is empty") ++
                c.unsetErrors.map (fun e => "key " ++ e.key ++ ", not set"))) := by
  refine ⟨GetError_eq_none_iff c, ?_⟩
  have h1 : EnvEmptyValueError.Error = fun e => "key " ++ e.key ++ ", value is empty" := rfl
  have h2 : EnvKeyNotSetError.Error = fun e => "key " ++ e.key ++ ", not set" := rfl
  unfold EnvErrorCollection.GetError
  simp only [List.nil_append, List.length_append, List.length_map, h1, h2]
  by_cases h : c.emptyValueErrors = [] ∧ c.unsetErrors = []
  · rw [if_pos h]
    simp [h.1, h.2]
  · rw [if_neg h]
    have hpos : c.emptyValueErrors.length + c.unsetErrors.length > 0 := by
      rcases Nat.eq_zero_or_pos (c.emptyValueErrors.length + c.unsetErrors.length) with h0 | h0
      · exact absurd ⟨List.length_eq_zero.mp (by omega), List.length_eq_zero.mp (by omega)⟩ h
      · exact h0
    rw [if_pos hpos]

/-- C11 on the collection with not-set errors for `X` and then `Y`. -/
theorem C11_GetError_message_witness :
    twoUnsetErrors.GetError =
      some "Invalid environment, 2 error(s):\nkey X, not set\nkey Y, not set" := by
  rw [(C11_GetError_message twoUnsetErrors).2]
  decide

/-- C12: for every registry and key, `Environment.GetBoolean` returns false
when `GetValue` returns nil, and otherwise the boolean parser `GetBoolean`
applied to the string `GetValue` returns; it fails only where `GetValue`
fails. -/
theorem C12_Environment_GetBoolean (e : Environment) (k : String) :
    (e.GetValue k = .ok none → e.GetBoolean k = .ok false) ∧
      (∀ s, e.GetValue k = .ok (some s) → e.GetBoolean k = .ok (GetBoolean s)) ∧
      (∀ p, e.GetValue k = .error p → e.GetBoolean k = .error p) := by
  unfold Environment.GetBoolean
  refine ⟨?_, ?_, ?_⟩
  · intro h
    rw [h]
  · intro s h
    rw [h]
  · intro p h
    rw [h]

/-- C12 on a token whose environment value is empty and whose default is
`true`: `Environment.GetBoolean` returns true. -/
theorem C12_Environment_GetBoolean_witness :
    (NewEnvironment emptyKEnviron defaultTrueTokens).1.GetValue "K" = .ok (some "true") ∧
      (NewEnvironment emptyKEnviron defaultTrueTokens).1.GetBoolean "K" = .ok true :=
  ⟨by decide,
    ((C12_Environment_GetBoolean (NewEnvironment emptyKEnviron defaultTrueTokens).1 "K").2.1
      "true" (by decide)).trans (by decide)⟩

/-- C13: for every environment and key, `BoolFromEnv` is `GetBoolean` applied to
the raw value of the key, an absent entry counting as the empty string; for a
key that is not set it returns false. -/
theorem C13_BoolFromEnv (environ : String → Option String) (key : String) :
    BoolFromEnv environ key = GetBoolean ((environ key).getD "") ∧
      (environ key = none → BoolFromEnv environ key = false) := by
  have h : Getenv environ key = (environ key).getD "" := by
    unfold Getenv LookupEnv
    cases environ key <;> rfl
  have hempty : GetBoolean "" = false := by decide
  unfold BoolFromEnv
  rw [h]
  refine ⟨rfl, ?_⟩
  intro hk
  rw [hk]
  exact hempty

/-- C13 on the key of the test, with nothing set. -/
theorem C13_BoolFromEnv_witness : BoolFromEnv emptyEnviron "_BOOL_FALSE" = false :=
  (C13_BoolFromEnv emptyEnviron "_BOOL_FALSE").2 rfl

/-- C14: `AddKeyNotSet` appends one `KeyNotSet` error for the key at the end of the
not-set sequence, leaves the empty-value sequence unchanged and returns the
appended error; `AddKeyEmptyValue` does the same for the empty-value sequence
and leaves the not-set sequence unchanged. Adding the same key twice leaves two
entries for it. -/
theorem C14_Add_appends (c : EnvErrorCollection) (key : String) :
    ((c.AddKeyNotSet key).1.unsetErrors = c.unsetErrors ++ [(c.AddKeyNotSet key).2] ∧
        (c.AddKeyNotSet key).1.emptyValueErrors = c.emptyValueErrors ∧
        (c.AddKeyNotSet key).2 = { key := key }) ∧
      ((c.AddKeyEmptyValue key).1.emptyValueErrors =
          c.emptyValueErrors ++ [(c.AddKeyEmptyValue key).2] ∧
        (c.AddKeyEmptyValue key).1.unsetErrors = c.unsetErrors ∧
        (c.AddKeyEmptyValue key).2 = { key := key }) ∧
      ((c.AddKeyNotSet key).1.AddKeyNotSet key).1.unsetErrors =
        c.unsetErrors ++ [{ key := key }, { key := key }] ∧
      ((c.AddKeyEmptyValue key).1.AddKeyEmptyValue key).1.emptyValueErrors =
        c.emptyValueErrors ++ [{ key := key }, { key := key }] := by
  refine ⟨⟨rfl, rfl, rfl⟩, ⟨rfl, rfl, rfl⟩, ?_, ?_⟩
  · simp [EnvErrorCollection.AddKeyNotSet, NewEnvKeyNotSetError]
  · simp [EnvErrorCollection.AddKeyEmptyValue, NewErrorEnvEmptyValue]

/-- C15: after `Add(t)`, `Get` of the key of `t` returns `t`, whatever was stored
under that key before; `Get` of every other key returns what it returned
before; and in a registry built from the empty map by a sequence of `Add`,
`Get` of a key that none of the added tokens has is nil. -/
theorem C15_Add_Get (e : Environment) (t : EnvToken) (k : String) :
    (e.Add t).Get t.EnvKey = some t ∧
      (k ≠ t.EnvKey → (e.Add t).Get k = e.Get k) ∧
      (∀ u : EnvToken, ((e.Add u).Add t).Get t.EnvKey = some t) ∧
      (∀ l : List EnvToken, k ∉ l.map EnvToken.EnvKey →
        (l.foldl Environment.Add Environment.empty).Get k = none) := by
  refine ⟨?_, ?_, ?_, ?_⟩
  · rw [Get_Add, if_pos rfl]
  · intro h
    rw [Get_Add, if_neg h]
  · intro u
    rw [Get_Add, if_pos rfl]
  · intro l
    have hgen : ∀ (l : List EnvToken) (e0 : Environment), k ∉ l.map EnvToken.EnvKey →
        (l.foldl Environment.Add e0).Get k = e0.Get k := by
      intro l
      induction l with
      | nil => intro e0 _; rfl
      | cons a rest ih =>
        intro e0 hk
        rw [List.map_cons, List.mem_cons, not_or] at hk
        rw [List.foldl_cons, ih _ hk.2, Get_Add, if_neg hk.1]
    intro hk
    rw [hgen l Environment.empty hk]
    rfl

/-- C15 on the registry that holds `K`: adding a token with the key `K` replaces
the one stored, and the key `J` stays absent. -/
theorem C15_Add_Get_witness :
    (defaultTrueRegistry.Add (NewEnvToken "K" "x" true)).Get "K" =
        some (NewEnvToken "K" "x" true) ∧
      (defaultTrueRegistry.Add (NewEnvToken "K" "x" true)).Get "J" =
        defaultTrueRegistry.Get "J" ∧
      ([NewEnvToken "K" "x" true].foldl Environment.Add Environment.empty).Get "J" = none :=
  ⟨(C15_Add_Get defaultTrueRegistry (NewEnvToken "K" "x" true) "J").1,
    (C15_Add_Get defaultTrueRegistry (NewEnvToken "K" "x" true) "J").2.1 (by decide),
    (C15_Add_Get defaultTrueRegistry (NewEnvToken "K" "x" true) "J").2.2.2
      [NewEnvToken "K" "x" true] (by decide)⟩

/-! ## The built registry, duplicates included -/

/-- A token found in the built registry is an input token with the key that
passes validation, with its resolved value set. -/
theorem registry_Get_eq_some (environ : String → Option String) (toks : List EnvToken)
    (k : String) (u : EnvToken) (h : (NewEnvironment environ toks).1.Get k = some u) :
    ∃ t ∈ toks, t.EnvKey = k ∧ passesValidation environ t = true ∧ u = resolved environ t := by
  rw [registry_Get] at h
  cases hl : (toks.filter fun t =>
      decide (t.EnvKey = k) && passesValidation environ t).getLast? with
  | none => rw [hl] at h; cases h
  | some t =>
    rw [hl] at h
    have hmem := List.mem_filter.mp (List.mem_of_getLast?_eq_some hl)
    simp only [Bool.and_eq_true, decide_eq_true_eq] at hmem
    refine ⟨t, hmem.1, hmem.2.1, hmem.2.2, ?_⟩
    simpa using h.symm

/-- The built registry holds a token under a key as soon as an input token with
the key passes validation. -/
theorem registry_Get_ne_none (environ : String → Option String) (toks : List EnvToken)
    (t : EnvToken) (ht : t ∈ toks) (hp : passesValidation environ t = true) :
    (NewEnvironment environ toks).1.Get t.EnvKey ≠ none := by
  rw [registry_Get]
  have hmem : t ∈ toks.filter fun u =>
      decide (u.EnvKey = t.EnvKey) && passesValidation environ u := by
    apply List.mem_filter.mpr
    refine ⟨ht, ?_⟩
    simp [hp]
  intro h
  rw [Option.map_eq_none', List.getLast?_eq_none_iff] at h
  rw [h] at hmem
  cases hmem

/-- C17: for every token list, environment and key, `Get` of the key on the
registry returned by `NewEnvironment` is present if and only if some input
token with the key passes validation (it is optional, or the key is present
and non-empty in the environment), and it is then the last such token in input
order, with its resolved value pointing to the raw value of the key. -/
theorem C17_registry_characterisation (environ : String → Option String)
    (toks : List EnvToken) (k : String) :
    ((NewEnvironment environ toks).1.Get k ≠ none ↔
        ∃ t ∈ toks, t.EnvKey = k ∧
          (t.Required = true → ∃ v, environ k = some v ∧ v ≠ "")) ∧
      (NewEnvironment environ toks).1.Get k =
        ((toks.filter fun t =>
            decide (t.EnvKey = k) &&
              (!t.Required ||
                match environ t.EnvKey with
                | some v => v ≠ ""
                | none => false)).getLast?).map
          fun t => t.SetValue (some ((environ k).getD "")) := by
  constructor
  · constructor
    · intro h
      cases hg : (NewEnvironment environ toks).1.Get k with
      | none => exact absurd hg h
      | some u =>
        obtain ⟨t, ht, hk, hp, _⟩ := registry_Get_eq_some environ toks k u hg
        refine ⟨t, ht, hk, ?_⟩
        rw [← hk]
        exact (passesValidation_iff environ t).mp hp
    · rintro ⟨t, ht, hk, hp⟩
      rw [← hk] at hp ⊢
      exact registry_Get_ne_none environ toks t ht ((passesValidation_iff environ t).mpr hp)
  · rw [registry_Get]
    have hf : (fun t : EnvToken => decide (t.EnvKey = k) &&
          (!t.Required ||
            match environ t.EnvKey with
            | some v => v ≠ ""
            | none => false)) =
        fun t => decide (t.EnvKey = k) && passesValidation environ t := by
      funext t
      simp only [passesValidation]
    rw [hf]
    cases hl : (toks.filter fun t =>
        decide (t.EnvKey = k) && passesValidation environ t).getLast? with
    | none => rfl
    | some t =>
      have hmem := List.mem_filter.mp (List.mem_of_getLast?_eq_some hl)
      simp only [Bool.and_eq_true, decide_eq_true_eq] at hmem
      simp only [Option.map_some', resolved, hmem.2.1]

/-- C17 on a required and an optional token with the same key `A`, nothing set:
a not-set error is reported for `A`, and `Get` of `A` is the optional token. -/
theorem C17_registry_characterisation_witness :
    (NewEnvironment emptyEnviron shadowTokens).2 =
        some { unsetErrors := [{ key := "A" }], emptyValueErrors := [] } ∧
      (NewEnvironment emptyEnviron shadowTokens).1.Get "A" =
        some { EnvKey := "A", Required := false, DefaultValue := some "d", Value := some "" } :=
  ⟨by decide, (C17_registry_characterisation emptyEnviron shadowTokens "A").2.trans (by decide)⟩

/-- C16, as amended: for an optional token made by `NewEnvToken` whose key is
absent from the environment, the registry returned by `NewEnvironment` holds a
token under its key whose resolved value is set, to the empty string; with
pairwise distinct keys that token is the input token with this resolved value,
and `GetValue` applies the default at read time: the resolved value is the
empty string, not the default. -/
theorem C16_optional_absent_value_empty (environ : String → Option String)
    (toks : List EnvToken) (k d : String)
    (ht : NewEnvToken k d false ∈ toks) (he : environ k = none) :
    (∃ u, (NewEnvironment environ toks).1.Get k = some u ∧ u.EnvKey = k ∧
        u.Value = some "") ∧
      ((toks.map EnvToken.EnvKey).Nodup →
        (NewEnvironment environ toks).1.Get k =
            some { EnvKey := k, Required := false, DefaultValue := some d, Value := some "" } ∧
          (NewEnvironment environ toks).1.GetValue k =
            .ok (if d ≠ "" then some d else none)) := by
  have hp : passesValidation environ (NewEnvToken k d false) = true := by
    simp [passesValidation, NewEnvToken]
  constructor
  · cases hg : (NewEnvironment environ toks).1.Get k with
    | none => exact absurd hg (registry_Get_ne_none environ toks (NewEnvToken k d false) ht hp)
    | some u =>
      obtain ⟨t, _, hk, _, hu⟩ := registry_Get_eq_some environ toks k u hg
      refine ⟨u, rfl, ?_, ?_⟩
      · rw [hu]; exact hk
      · rw [hu]
        simp [resolved, EnvToken.SetValue, hk, he]
  · intro hd
    have hg : (NewEnvironment environ toks).1.Get k =
        some { EnvKey := k, Required := false, DefaultValue := some d, Value := some "" } := by
      have hf := filter_key_of_nodup (passesValidation environ) toks hd (NewEnvToken k d false) ht
      have hk : (NewEnvToken k d false).EnvKey = k := rfl
      rw [hk, hp] at hf
      rw [registry_Get, hf]
      simp [resolved, EnvToken.SetValue, NewEnvToken, he]
    refine ⟨hg, ?_⟩
    unfold Environment.GetValue
    rw [hg]
    by_cases hd0 : d = "" <;> simp [hd0]

/-- C16 on the scenario of the spec: the optional token `A` with the default
`default`, nothing set. -/
theorem C16_optional_absent_value_empty_witness :
    (NewEnvironment emptyEnviron scenarioTokens).1.Get "A" =
        some { EnvKey := "A", Required := false, DefaultValue := some "default",
               Value := some "" } ∧
      (NewEnvironment emptyEnviron scenarioTokens).1.GetValue "A" = .ok (some "default") :=
  (C16_optional_absent_value_empty emptyEnviron scenarioTokens "A" "default"
    (by decide) rfl).2 (by decide)

/-- C16, the claim refuted: in the scenario of the spec the optional token `A` is
absent from the environment, and the token the registry holds for it has its
resolved value set, to the empty string, where the claim says it stays unset. -/
theorem C16_resolved_value_is_set :
    (NewEnvToken "A" "default" false).Value = none ∧
      emptyEnviron "A" = none ∧
      ((NewEnvironment emptyEnviron scenarioTokens).1.Get "A").map EnvToken.Value =
        some (some "") ∧
      ¬ (((NewEnvironment emptyEnviron scenarioTokens).1.Get "A").map EnvToken.Value =
        some none) := by
  decide

/-- C18: for a list of tokens made by `NewEnvToken`, every token stored in the
registry returned by `NewEnvironment` has its resolved value and its default
set, so `GetValue` and `Environment.GetBoolean` return a result for every key
and never fail on a nil pointer. -/
theorem C18_reads_never_fail (environ : String → Option String) (toks : List EnvToken)
    (key : String) (hb : ∀ t ∈ toks, ∃ k d r, t = NewEnvToken k d r) :
    (∀ u, (NewEnvironment environ toks).1.Get key = some u →
        (∃ v, u.Value = some v) ∧ ∃ d, u.DefaultValue = some d) ∧
      (∃ v, (NewEnvironment environ toks).1.GetValue key = .ok v) ∧
      ∃ b, (NewEnvironment environ toks).1.GetBoolean key = .ok b := by
  have hstored : ∀ u, (NewEnvironment environ toks).1.Get key = some u →
      (∃ v, u.Value = some v) ∧ ∃ d, u.DefaultValue = some d := by
    intro u hu
    obtain ⟨t, ht, _, _, hres⟩ := registry_Get_eq_some environ toks key u hu
    obtain ⟨k, d, r, hk⟩ := hb t ht
    rw [hres, hk]
    exact ⟨⟨_, rfl⟩, ⟨d, rfl⟩⟩
  have hvalue : ∃ v, (NewEnvironment environ toks).1.GetValue key = .ok v := by
    unfold Environment.GetValue
    cases hg : (NewEnvironment environ toks).1.Get key with
    | none => exact ⟨none, rfl⟩
    | some u =>
      obtain ⟨⟨v, hv⟩, ⟨d, hdv⟩⟩ := hstored u hg
      simp only [hv, hdv]
      by_cases h1 : v = "" <;> by_cases h2 : d = "" <;> simp [h1, h2]
  refine ⟨hstored, hvalue, ?_⟩
  obtain ⟨v, hv⟩ := hvalue
  unfold Environment.GetBoolean
  rw [hv]
  cases v with
  | none => exact ⟨false, rfl⟩
  | some x => exact ⟨_, rfl⟩

/-- The six tokens are made by `NewEnvToken`. -/
theorem sixTokens_built : ∀ t ∈ sixTokens, ∃ k d r, t = NewEnvToken k d r := by
  intro t ht
  simp only [sixTokens, List.mem_cons, List.mem_singleton, List.not_mem_nil, or_false] at ht
  rcases ht with rfl | rfl | rfl | rfl | rfl | rfl <;> exact ⟨_, _, _, rfl⟩

/-- C18 on the six tokens: the reads of a stored key and of a key not in the
registry both return. -/
theorem C18_reads_never_fail_witness :
    (∃ v, (NewEnvironment sixEnviron sixTokens).1.GetValue "A2" = .ok v) ∧
      ∃ b, (NewEnvironment sixEnviron sixTokens).1.GetBoolean "Z" = .ok b :=
  ⟨(C18_reads_never_fail sixEnviron sixTokens "A2" sixTokens_built).2.1,
    (C18_reads_never_fail sixEnviron sixTokens "Z" sixTokens_built).2.2⟩

/-- C19: for a token list with pairwise distinct keys and a required token of it,
`GetValue` of its key on the registry returned by `NewEnvironment` is the value
of the environment when that is set and non-empty, and nil otherwise; the
default of the token is not consulted. -/
theorem C19_required_ignores_default (environ : String → Option String)
    (toks : List EnvToken) (t : EnvToken)
    (hd : (toks.map EnvToken.EnvKey).Nodup) (ht : t ∈ toks) (hr : t.Required = true) :
    (NewEnvironment environ toks).1.GetValue t.EnvKey =
      .ok (match environ t.EnvKey with
        | some v => if v ≠ "" then some v else none
        | none => none) := by
  have hg := registry_Get environ toks t.EnvKey
  rw [filter_key_of_nodup (passesValidation environ) toks hd t ht] at hg
  unfold Environment.GetValue
  rw [hg]
  cases he : environ t.EnvKey with
  | none => simp [passesValidation, hr, he]
  | some v =>
    by_cases hv : v = "" <;>
      simp [passesValidation, resolved, EnvToken.SetValue, hr, he, hv]

/-- C19 on a required token with the default `d`: absent from the environment
it reads as nil, not as `d`. -/
theorem C19_required_ignores_default_witness :
    (NewEnvironment emptyEnviron [NewEnvToken "R" "d" true]).1.GetValue "R" = .ok none :=
  C19_required_ignores_default emptyEnviron [NewEnvToken "R" "d" true]
    (NewEnvToken "R" "d" true) (by decide) (by decide) rfl

end Envtoken
